import Mathlib

/-!
# Order repository

Shallow embedding of `internal/infra/database/order_repository.go`: the three methods
`Save`, `GetTotal` and `SelectAll` of `OrderRepository`, over an explicit model of the
`database/sql` handle they are called on.

* The receiver `r` only supplies `r.Db`; the database reached through it is the explicit
  state `DB`, threaded through every call.
* Whatever the database engine and the driver decide on their own during one call
  (a failure to prepare, a lost connection, a row that cannot be decoded, the order in which
  rows come back) is the explicit input `Env` of that call.
* A Go `error` is `Option Err` (`none` is `nil`); a Go slice that may be `nil` is
  `Option (List _)` (`none` is the nil slice, `some []` is an allocated slice of length 0).
-/

namespace OrderRepository

/-! ## Data model -/

/-- Error value reported by the database driver. -/
abbrev Err := String

/-- Modelled from the spec: the struct `entity.Order` (package `internal/entity`), with the
four fields the repository reads and writes. The repository never computes with the three
numeric fields, it only passes them on, so their type is a parameter. -/
structure Order (α : Type) where
  ID : String
  Price : α
  Tax : α
  FinalPrice : α
deriving DecidableEq, Repr

/-- One statement-level request sent to the database. Reading the rows of an answer
(`Next`, `Scan`, `Err`) consumes the reply of the `query` request and is not a request. -/
inductive Request (α : Type) where
  | prepare (sql : String)
  | exec (stmt : Nat) (id : String) (price tax finalPrice : α)
  | queryRow (sql : String)
  | query (sql : String)
deriving DecidableEq, Repr

/-- The database behind `r.Db`: the rows of table `orders` in storage order, the schema policy
for `id`, the prepared statements and result cursors currently open, the next free handle,
and the requests received so far. -/
structure DB (α : Type) where
  orders : List (Order α)
  uniqueID : Bool
  openStmts : List Nat
  openRows : List Nat
  nextHandle : Nat
  trace : List (Request α)
deriving DecidableEq, Repr

/-- What the engine and the driver decide during one call: the error each request reports, if
any, and the answer to the `SELECT`, which for a table content gives the rows the cursor
yields, each with the outcome of `Scan` on it, and the error that ended the iteration. -/
structure Env (α : Type) where
  prepare : Option Err
  exec : Option Err
  queryRow : Option Err
  rowScan : Option Err
  query : Option Err
  cursor : List (Order α) → List (Except Err (Order α)) × Option Err

/-- The environment in which every database call succeeds and the `SELECT` yields every row
of the table, in storage order. -/
def Env.ok {α : Type} : Env α :=
  { prepare := none, exec := none, queryRow := none, rowScan := none, query := none,
    cursor := fun tbl => (tbl.map Except.ok, none) }

/-- The `SELECT` of this environment yields all rows of the table `tbl`, in some order, each
decodable, and the iteration ends without error. -/
def Env.SelectsAll {α : Type} (env : Env α) (tbl : List (Order α)) : Prop :=
  ∃ l : List (Order α), l.Perm tbl ∧ env.cursor tbl = (l.map Except.ok, none)

/-- Every step of `Save` succeeds in this environment (constraint violations apart). -/
def Env.SaveOK {α : Type} (env : Env α) : Prop :=
  env.prepare = none ∧ env.exec = none

/-- A prepared statement (`*sql.Stmt`). -/
structure Stmt where
  handle : Nat
  sql : String
deriving DecidableEq, Repr

/-- The single-row answer of `QueryRow` (`*sql.Row`): the error of the query if it failed,
the value of `count(*)`, and the error decoding it would report. -/
structure Row where
  err : Option Err
  count : Int
  scanErr : Option Err
deriving DecidableEq, Repr

/-- A result cursor (`*sql.Rows`): its handle, the rows it has still to yield, each with the
outcome of `Scan` on it, and the error `Err()` reports once `Next()` has returned false. -/
structure Rows (α : Type) where
  handle : Nat
  pending : List (Except Err (Order α))
  lasterr : Option Err

/-! ## The `database/sql` calls the repository makes -/

def insertSQL : String := "INSERT INTO orders (id, price, tax, final_price) VALUES (?, ?, ?, ?)"

def countSQL : String := "Select count(*) from orders"

def selectSQL : String := "SELECT id, price, tax, final_price FROM orders"

/-- The error of an `INSERT` that the table rejects because the id is already present. -/
def uniqueViolation : Err := "UNIQUE constraint failed: orders.id"

/-- `db.Prepare(sql)`: one request; on success a new statement is open. -/
def DB.Prepare {α : Type} (sql : String) (env : Env α) (db : DB α) : Except Err Stmt × DB α :=
  let db1 := { db with trace := db.trace ++ [Request.prepare sql] }
  match env.prepare with
  | some err => (Except.error err, db1)
  | none =>
    (Except.ok ⟨db.nextHandle, sql⟩,
      { db1 with openStmts := db.nextHandle :: db.openStmts, nextHandle := db.nextHandle + 1 })

/-- `stmt.Exec(id, price, tax, finalPrice)` for the prepared `INSERT`: one request; the row is
appended unless the request fails or the table rejects a duplicate id. -/
def Stmt.Exec {α : Type} (stmt : Stmt) (id : String) (price tax finalPrice : α)
    (env : Env α) (db : DB α) : Option Err × DB α :=
  let db1 := { db with trace := db.trace ++ [Request.exec stmt.handle id price tax finalPrice] }
  match env.exec with
  | some err => (some err, db1)
  | none =>
    if db.uniqueID && db.orders.any (fun o => o.ID == id) then (some uniqueViolation, db1)
    else (none, { db1 with orders := db.orders ++ [⟨id, price, tax, finalPrice⟩] })

/-- `db.QueryRow(sql)` for the `count(*)` query: one request; never fails by itself, the
error is kept in the row until `Scan`. -/
def DB.QueryRow {α : Type} (sql : String) (env : Env α) (db : DB α) : Row × DB α :=
  (⟨env.queryRow, db.orders.length, env.rowScan⟩,
    { db with trace := db.trace ++ [Request.queryRow sql] })

/-- `row.Scan(&dest)`: returns the new value of `dest` and the error. On failure `dest` keeps
its value. -/
def Row.Scan (row : Row) (dest : Int) : Int × Option Err :=
  match row.err with
  | some err => (dest, some err)
  | none =>
    match row.scanErr with
    | some err => (dest, some err)
    | none => (row.count, none)

/-- `db.Query(sql)` for the `SELECT`: one request; on success a new cursor is open. -/
def DB.Query {α : Type} (sql : String) (env : Env α) (db : DB α) : Except Err (Rows α) × DB α :=
  let db1 := { db with trace := db.trace ++ [Request.query sql] }
  match env.query with
  | some err => (Except.error err, db1)
  | none =>
    (Except.ok ⟨db.nextHandle, (env.cursor db.orders).1, (env.cursor db.orders).2⟩,
      { db1 with openRows := db.nextHandle :: db.openRows, nextHandle := db.nextHandle + 1 })

/-- `rows.Close()`: the cursor is no longer open. A cursor stays open from `Query` until
`Close` (the driver may release it earlier; `Close` is then a no-op). -/
def Rows.Close {α : Type} (rows : Rows α) (db : DB α) : DB α :=
  { db with openRows := db.openRows.erase rows.handle }

/-! ## The repository -/

/-- What a call of `Save` leaves behind: the error returned, the value of the caller's
`*order` after the call, and the database. -/
structure SaveOutcome (α : Type) where
  err : Option Err
  order : Order α
  db : DB α

/-- `func (r *OrderRepository) Save(order *entity.Order) error`. The statement is prepared,
then executed with the four fields of the order; `order` is only read, and the statement is
not closed. -/
def Save {α : Type} (env : Env α) (order : Order α) (db : DB α) : SaveOutcome α :=
  match DB.Prepare insertSQL env db with
  | (Except.error err, db1) => ⟨some err, order, db1⟩
  | (Except.ok stmt, db1) =>
    match stmt.Exec order.ID order.Price order.Tax order.FinalPrice env db1 with
    | (some err, db2) => ⟨some err, order, db2⟩
    | (none, db2) => ⟨none, order, db2⟩

/-- `func (r *OrderRepository) GetTotal() (int, error)`. -/
def GetTotal {α : Type} (env : Env α) (db : DB α) : (Int × Option Err) × DB α :=
  let total : Int := 0
  match DB.QueryRow countSQL env db with
  | (row, db1) =>
    match row.Scan total with
    | (_, some err) => ((0, some err), db1)
    | (total, none) => ((total, none), db1)

/-- The loop `for tableRows.Next() { ... }` of `SelectAll` and the statements after it, on the
rows the cursor has still to yield; `orders` is the slice built so far. -/
def SelectAll.loop {α : Type} (lasterr : Option Err) :
    List (Except Err (Order α)) → List (Order α) → Option (List (Order α)) × Option Err
  | [], orders =>
    -- `tableRows.Next()` is false; `err = tableRows.Err()`
    match lasterr with
    | some err => (none, some err)
    | none => (some orders, none)
  | Except.error err :: _, _ =>
    -- `tableRows.Scan(...)` fails
    (none, some err)
  | Except.ok order :: rest, orders =>
    SelectAll.loop lasterr rest (orders ++ [order])

/-- `func (r *OrderRepository) SelectAll() ([]*entity.Order, error)`. The deferred
`tableRows.Close()` runs on every return that follows a successful `Query`. -/
def SelectAll {α : Type} (env : Env α) (db : DB α) :
    (Option (List (Order α)) × Option Err) × DB α :=
  match DB.Query selectSQL env db with
  | (Except.error err, db1) => ((none, some err), db1)
  | (Except.ok tableRows, db1) =>
    (SelectAll.loop tableRows.lasterr tableRows.pending [], tableRows.Close db1)

/-- A caller that makes one `Save` call per element, each in its own environment, and collects
the errors returned. -/
def saveEach {α : Type} : List (Env α × Order α) → DB α → List (Option Err) × DB α
  | [], db => ([], db)
  | (env, order) :: rest, db =>
    ((Save env order db).err :: (saveEach rest (Save env order db).db).1,
      (saveEach rest (Save env order db).db).2)

/-- An empty `orders` table on a fresh connection. -/
def DB.empty {α : Type} (uniqueID : Bool) : DB α :=
  { orders := [], uniqueID := uniqueID, openStmts := [], openRows := [], nextHandle := 0,
    trace := [] }

/-! ## Auxiliary facts about the calls -/

section Aux

variable {α : Type}

lemma prepare_fst (sql : String) (env : Env α) (db : DB α) :
    (DB.Prepare sql env db).1 =
      match env.prepare with
      | some e => Except.error e
      | none => Except.ok ⟨db.nextHandle, sql⟩ := by
  unfold DB.Prepare
  cases env.prepare <;> rfl

lemma save_of_prepare_error (env : Env α) (order : Order α) (db : DB α) (e : Err)
    (h : env.prepare = some e) :
    Save env order db =
      ⟨some e, order, { db with trace := db.trace ++ [Request.prepare insertSQL] }⟩ := by
  simp [Save, DB.Prepare, h]

lemma save_of_exec_error (env : Env α) (order : Order α) (db : DB α) (e : Err)
    (hp : env.prepare = none) (h : env.exec = some e) :
    Save env order db =
      ⟨some e, order,
        { db with
          trace := db.trace ++ [Request.prepare insertSQL] ++
            [Request.exec db.nextHandle order.ID order.Price order.Tax order.FinalPrice],
          openStmts := db.nextHandle :: db.openStmts,
          nextHandle := db.nextHandle + 1 }⟩ := by
  simp [Save, DB.Prepare, Stmt.Exec, hp, h]

lemma save_of_duplicate (env : Env α) (order : Order α) (db : DB α)
    (hp : env.prepare = none) (he : env.exec = none)
    (h : (db.uniqueID && db.orders.any (fun o => o.ID == order.ID)) = true) :
    Save env order db =
      ⟨some uniqueViolation, order,
        { db with
          trace := db.trace ++ [Request.prepare insertSQL] ++
            [Request.exec db.nextHandle order.ID order.Price order.Tax order.FinalPrice],
          openStmts := db.nextHandle :: db.openStmts,
          nextHandle := db.nextHandle + 1 }⟩ := by
  simp only [Save, DB.Prepare, Stmt.Exec, hp, he, h, if_true]

lemma save_of_inserted (env : Env α) (order : Order α) (db : DB α)
    (hp : env.prepare = none) (he : env.exec = none)
    (h : (db.uniqueID && db.orders.any (fun o => o.ID == order.ID)) = false) :
    Save env order db =
      ⟨none, order,
        { db with
          orders := db.orders ++ [order],
          trace := db.trace ++ [Request.prepare insertSQL] ++
            [Request.exec db.nextHandle order.ID order.Price order.Tax order.FinalPrice],
          openStmts := db.nextHandle :: db.openStmts,
          nextHandle := db.nextHandle + 1 }⟩ := by
  simp [Save, DB.Prepare, Stmt.Exec, hp, he, h]

/-- The four ways a call of `Save` can go. -/
lemma save_cases (env : Env α) (order : Order α) (db : DB α) :
    (∃ e, env.prepare = some e ∧
      Save env order db =
        ⟨some e, order, { db with trace := db.trace ++ [Request.prepare insertSQL] }⟩) ∨
    (∃ e, env.prepare = none ∧
      (env.exec = some e ∨
        (env.exec = none ∧ e = uniqueViolation ∧
          (db.uniqueID && db.orders.any (fun o => o.ID == order.ID)) = true)) ∧
      Save env order db =
        ⟨some e, order,
          { db with
            trace := db.trace ++ [Request.prepare insertSQL] ++
              [Request.exec db.nextHandle order.ID order.Price order.Tax order.FinalPrice],
            openStmts := db.nextHandle :: db.openStmts,
            nextHandle := db.nextHandle + 1 }⟩) ∨
    (env.prepare = none ∧ env.exec = none ∧
      (db.uniqueID && db.orders.any (fun o => o.ID == order.ID)) = false ∧
      Save env order db =
        ⟨none, order,
          { db with
            orders := db.orders ++ [order],
            trace := db.trace ++ [Request.prepare insertSQL] ++
              [Request.exec db.nextHandle order.ID order.Price order.Tax order.FinalPrice],
            openStmts := db.nextHandle :: db.openStmts,
            nextHandle := db.nextHandle + 1 }⟩) := by
  cases hp : env.prepare with
  | some e => exact Or.inl ⟨e, rfl, save_of_prepare_error env order db e hp⟩
  | none =>
    cases he : env.exec with
    | some e => exact Or.inr (Or.inl ⟨e, rfl, Or.inl rfl, save_of_exec_error env order db e hp he⟩)
    | none =>
      cases hd : (db.uniqueID && db.orders.any (fun o => o.ID == order.ID)) with
      | true =>
        exact Or.inr (Or.inl ⟨uniqueViolation, rfl, Or.inr ⟨rfl, rfl, rfl⟩,
          save_of_duplicate env order db hp he hd⟩)
      | false => exact Or.inr (Or.inr ⟨rfl, rfl, rfl, save_of_inserted env order db hp he hd⟩)

lemma query_fst (sql : String) (env : Env α) (db : DB α) :
    (DB.Query sql env db).1 =
      match env.query with
      | some e => Except.error e
      | none =>
        Except.ok ⟨db.nextHandle, (env.cursor db.orders).1, (env.cursor db.orders).2⟩ := by
  unfold DB.Query
  cases env.query <;> rfl

lemma selectAll_of_query_error (env : Env α) (db : DB α) (e : Err) (h : env.query = some e) :
    SelectAll env db =
      ((none, some e), { db with trace := db.trace ++ [Request.query selectSQL] }) := by
  simp [SelectAll, DB.Query, h]

lemma selectAll_of_query_ok (env : Env α) (db : DB α) (h : env.query = none) :
    SelectAll env db =
      (SelectAll.loop (env.cursor db.orders).2 (env.cursor db.orders).1 [],
        { db with
          trace := db.trace ++ [Request.query selectSQL],
          openRows := (db.nextHandle :: db.openRows).erase db.nextHandle,
          nextHandle := db.nextHandle + 1 }) := by
  simp [SelectAll, DB.Query, Rows.Close, h]

/-- The loop over rows that all decode: the outcome is decided by `Err()`. -/
lemma loop_all_ok (lasterr : Option Err) (decoded acc : List (Order α)) :
    SelectAll.loop lasterr (decoded.map Except.ok) acc =
      match lasterr with
      | some e => (none, some e)
      | none => (some (acc ++ decoded), none) := by
  induction decoded generalizing acc with
  | nil => cases lasterr <;> simp [SelectAll.loop]
  | cons o rest ih =>
    simp only [List.map_cons, SelectAll.loop, ih]
    cases lasterr <;> simp

/-- The loop stops at the first row whose `Scan` fails, whatever was decoded before. -/
lemma loop_scan_error (lasterr : Option Err) (decoded acc : List (Order α)) (e : Err)
    (rest : List (Except Err (Order α))) :
    SelectAll.loop lasterr (decoded.map Except.ok ++ Except.error e :: rest) acc
      = (none, some e) := by
  induction decoded generalizing acc with
  | nil => simp [SelectAll.loop]
  | cons o tl ih =>
    rw [List.map_cons, List.cons_append, SelectAll.loop]
    exact ih _

/-- A cursor content is either a list of rows that all decode, or has a first row whose
`Scan` fails. -/
lemma pending_cases (pending : List (Except Err (Order α))) :
    (∃ decoded : List (Order α), pending = decoded.map Except.ok) ∨
    (∃ (decoded : List (Order α)) (e : Err) (rest : List (Except Err (Order α))),
      pending = decoded.map Except.ok ++ Except.error e :: rest) := by
  induction pending with
  | nil => exact Or.inl ⟨[], rfl⟩
  | cons r tl ih =>
    cases r with
    | error e => exact Or.inr ⟨[], e, tl, rfl⟩
    | ok o =>
      rcases ih with ⟨d, hd⟩ | ⟨d, e, rest, hd⟩
      · exact Or.inl ⟨o :: d, by simp [hd]⟩
      · exact Or.inr ⟨o :: d, e, rest, by simp [hd]⟩

/-- The loop returns a nil error only when every row decoded and `Err()` is nil, and then
returns the decoded rows. -/
lemma loop_nil_error (lasterr : Option Err) (pending : List (Except Err (Order α)))
    (acc : List (Order α)) (h : (SelectAll.loop lasterr pending acc).2 = none) :
    lasterr = none ∧ ∃ decoded : List (Order α),
      pending = decoded.map Except.ok ∧
      SelectAll.loop lasterr pending acc = (some (acc ++ decoded), none) := by
  rcases pending_cases pending with ⟨d, hd⟩ | ⟨d, e, rest, hd⟩
  · subst hd
    rw [loop_all_ok] at h ⊢
    cases lasterr with
    | some e => simp at h
    | none => exact ⟨rfl, d, rfl, rfl⟩
  · subst hd
    rw [loop_scan_error] at h
    simp at h

/-- The loop never returns a list together with an error. -/
lemma loop_error_nil_list (lasterr : Option Err) (pending : List (Except Err (Order α)))
    (acc : List (Order α)) (h : (SelectAll.loop lasterr pending acc).2 ≠ none) :
    (SelectAll.loop lasterr pending acc).1 = none := by
  rcases pending_cases pending with ⟨d, hd⟩ | ⟨d, e, rest, hd⟩
  · subst hd
    rw [loop_all_ok] at h ⊢
    cases lasterr with
    | some e => rfl
    | none => simp at h
  · subst hd
    rw [loop_scan_error]

lemma selectAll_orders (env : Env α) (db : DB α) : (SelectAll env db).2.orders = db.orders := by
  cases h : env.query with
  | some e => rw [selectAll_of_query_error env db e h]
  | none => rw [selectAll_of_query_ok env db h]

lemma selectAll_openRows (env : Env α) (db : DB α) :
    (SelectAll env db).2.openRows = db.openRows := by
  cases h : env.query with
  | some e => rw [selectAll_of_query_error env db e h]
  | none => rw [selectAll_of_query_ok env db h]; simp

lemma getTotal_eq (env : Env α) (db : DB α) :
    GetTotal env db =
      ((match env.queryRow with
        | some e => (0, some e)
        | none =>
          match env.rowScan with
          | some e => (0, some e)
          | none => ((db.orders.length : Int), none)),
        { db with trace := db.trace ++ [Request.queryRow countSQL] }) := by
  unfold GetTotal DB.QueryRow Row.Scan
  cases env.queryRow <;> cases env.rowScan <;> rfl

lemma getTotal_orders (env : Env α) (db : DB α) : (GetTotal env db).2.orders = db.orders := by
  rw [getTotal_eq]

lemma save_order (env : Env α) (order : Order α) (db : DB α) :
    (Save env order db).order = order := by
  rcases save_cases env order db with ⟨e, _, h⟩ | ⟨e, _, _, h⟩ | ⟨_, _, _, h⟩ <;> rw [h]

/-- A successful `Save` appends the order to the table. -/
lemma save_success_orders (env : Env α) (order : Order α) (db : DB α)
    (h : (Save env order db).err = none) :
    (Save env order db).db.orders = db.orders ++ [order] := by
  rcases save_cases env order db with ⟨e, _, hs⟩ | ⟨e, _, _, hs⟩ | ⟨_, _, _, hs⟩
  · rw [hs] at h; simp at h
  · rw [hs] at h; simp at h
  · rw [hs]

/-- With a driver that reports no failure and an id not yet in the table, `Save` succeeds. -/
lemma save_fresh_id_ok (env : Env α) (order : Order α) (db : DB α) (hok : env.SaveOK)
    (hfresh : ∀ o ∈ db.orders, o.ID ≠ order.ID) : (Save env order db).err = none := by
  have hd : (db.uniqueID && db.orders.any (fun o => o.ID == order.ID)) = false := by
    simp only [Bool.and_eq_false_iff, List.any_eq_false, beq_iff_eq]
    exact Or.inr hfresh
  rw [save_of_inserted env order db hok.1 hok.2 hd]

lemma save_openStmts_of_prepared (env : Env α) (order : Order α) (db : DB α)
    (hp : env.prepare = none) :
    (Save env order db).db.openStmts = db.nextHandle :: db.openStmts := by
  rcases save_cases env order db with ⟨e, he, _⟩ | ⟨e, _, _, hs⟩ | ⟨_, _, _, hs⟩
  · rw [hp] at he; simp at he
  · rw [hs]
  · rw [hs]

/-- When every `Save` of a run succeeded, the table is the old one followed by the orders
saved, in the order of the calls. -/
lemma saveEach_success_orders (calls : List (Env α × Order α)) (db : DB α)
    (h : ∀ e ∈ (saveEach calls db).1, e = none) :
    (saveEach calls db).2.orders = db.orders ++ calls.map Prod.snd := by
  induction calls generalizing db with
  | nil => simp [saveEach]
  | cons c rest ih =>
    obtain ⟨env, order⟩ := c
    simp only [saveEach, List.mem_cons, forall_eq_or_imp] at h
    simp only [saveEach, List.map_cons]
    rw [ih _ h.2, save_success_orders env order db h.1]
    simp

/-- With a driver that reports no failure, orders whose ids are pairwise distinct and not yet
in the table are all saved. -/
lemma saveEach_all_ok (calls : List (Env α × Order α)) (db : DB α)
    (hok : ∀ c ∈ calls, c.1.SaveOK)
    (hnodup : (calls.map (fun c => c.2.ID)).Nodup)
    (hfresh : ∀ o ∈ db.orders, ∀ c ∈ calls, o.ID ≠ c.2.ID) :
    ∀ e ∈ (saveEach calls db).1, e = none := by
  induction calls generalizing db with
  | nil => simp [saveEach]
  | cons c rest ih =>
    obtain ⟨env, order⟩ := c
    simp only [List.map_cons, List.nodup_cons, List.mem_map, not_exists, not_and] at hnodup
    have hsave : (Save env order db).err = none :=
      save_fresh_id_ok env order db (hok _ (List.mem_cons_self _ _))
        (fun o ho => hfresh o ho _ (List.mem_cons_self _ _))
    simp only [saveEach, List.mem_cons, forall_eq_or_imp]
    refine ⟨hsave, ih _ (fun c hc => hok c (List.mem_cons_of_mem _ hc)) hnodup.2 ?_⟩
    intro o ho c hc
    rw [save_success_orders env order db hsave, List.mem_append, List.mem_singleton] at ho
    rcases ho with ho | ho
    · exact hfresh o ho c (List.mem_cons_of_mem _ hc)
    · subst ho
      exact fun heq => hnodup.1 c hc heq.symm

lemma saveEach_openStmts_length (calls : List (Env α × Order α)) (db : DB α)
    (hp : ∀ c ∈ calls, c.1.prepare = none) :
    (saveEach calls db).2.openStmts.length = db.openStmts.length + calls.length := by
  induction calls generalizing db with
  | nil => simp [saveEach]
  | cons c rest ih =>
    obtain ⟨env, order⟩ := c
    simp only [saveEach, List.length_cons]
    rw [ih _ (fun c hc => hp c (List.mem_cons_of_mem _ hc)),
      save_openStmts_of_prepared env order db (hp _ (List.mem_cons_self _ _))]
    simp only [List.length_cons]
    omega

/-- Among orders with pairwise distinct ids, selecting by the id of one of them gives that
order alone. -/
lemma filter_id_singleton (orders : List (Order α)) (o : Order α)
    (hnodup : (orders.map (fun x => x.ID)).Nodup) (ho : o ∈ orders) :
    orders.filter (fun x => decide (x.ID = o.ID)) = [o] := by
  induction orders with
  | nil => simp at ho
  | cons a rest ih =>
    simp only [List.map_cons, List.nodup_cons, List.mem_map, not_exists, not_and] at hnodup
    rcases List.mem_cons.mp ho with h | h
    · subst h
      have hrest : rest.filter (fun x => decide (x.ID = o.ID)) = [] := by
        rw [List.filter_eq_nil_iff]
        intro x hx
        simpa using hnodup.1 x hx
      simp [List.filter_cons, hrest]
    · have hne : a.ID ≠ o.ID := fun heq => hnodup.1 o h heq.symm
      simp [List.filter_cons, hne, ih hnodup.2 h]

end Aux

/-! ## Error propagation -/

section Errors

variable {α : Type}

/-- C5: for every order, whatever its field values, `Save` returns a non-nil error exactly
when preparing the `INSERT` fails or executing it fails, and the error is the one the database
reported. When prepare fails, the only request made is the prepare and the table is untouched
(the insert is never executed). `Save` validates nothing itself: when the driver reports no
failure, `Save` fails exactly when the table has a uniqueness constraint on `id` and already
holds a row with that id. -/
theorem save_error_iff_database_error (env : Env α) (order : Order α) (db : DB α) :
    (∀ e, (DB.Prepare insertSQL env db).1 = Except.error e →
      (Save env order db).err = some e ∧
      (Save env order db).db.trace = db.trace ++ [Request.prepare insertSQL] ∧
      (Save env order db).db.orders = db.orders) ∧
    (∀ stmt, (DB.Prepare insertSQL env db).1 = Except.ok stmt →
      (Save env order db).err =
        (stmt.Exec order.ID order.Price order.Tax order.FinalPrice env
          (DB.Prepare insertSQL env db).2).1) ∧
    ((Save env order db).err ≠ none ↔
      (∃ e, (DB.Prepare insertSQL env db).1 = Except.error e) ∨
      (∃ stmt e, (DB.Prepare insertSQL env db).1 = Except.ok stmt ∧
        (stmt.Exec order.ID order.Price order.Tax order.FinalPrice env
          (DB.Prepare insertSQL env db).2).1 = some e)) ∧
    (env.prepare = none → env.exec = none →
      ((Save env order db).err ≠ none ↔
        (db.uniqueID = true ∧ ∃ o ∈ db.orders, o.ID = order.ID))) := by
  cases hp : env.prepare with
  | some e =>
    simp [Save, DB.Prepare, hp]
  | none =>
    cases he : env.exec with
    | some e => simp [Save, DB.Prepare, Stmt.Exec, hp, he]
    | none =>
      cases hd : (db.uniqueID && db.orders.any (fun o => o.ID == order.ID)) with
      | true =>
        have hd2 := hd
        simp only [Bool.and_eq_true, List.any_eq_true, beq_iff_eq] at hd2
        simp [Save, DB.Prepare, Stmt.Exec, hp, he, hd]
        simpa using hd2
      | false =>
        simp [Save, DB.Prepare, Stmt.Exec, hp, he, hd]
        simpa using hd
/-- An order with an empty id whose final price is not price plus tax is saved into a table
without uniqueness constraint that already holds a row with that id, and is refused by
exactly the failures of the database. -/
theorem save_error_iff_database_error_witness :
    (Save Env.ok (⟨"", 100, 10, 7⟩ : Order Int)
        { DB.empty false with orders := [⟨"", 1, 1, 2⟩] }).err = none ∧
    (Save Env.ok (⟨"", 100, 10, 7⟩ : Order Int)
        { DB.empty true with orders := [⟨"", 1, 1, 2⟩] }).err = some uniqueViolation ∧
    (Save { (Env.ok : Env Int) with prepare := some "driver: bad connection" }
        ⟨"o1", 100, 10, 110⟩ (DB.empty true)).err = some "driver: bad connection" ∧
    (Save { (Env.ok : Env Int) with prepare := some "driver: bad connection" }
        ⟨"o1", 100, 10, 110⟩ (DB.empty true)).db.trace = [Request.prepare insertSQL] :=
  ⟨by
    have h := ((save_error_iff_database_error Env.ok (⟨"", 100, 10, 7⟩ : Order Int)
      { DB.empty false with orders := [⟨"", 1, 1, 2⟩] }).2.2.2 rfl rfl).not
    simp only [not_not] at h
    exact h.2 (by decide),
   by
    have h := (save_error_iff_database_error Env.ok (⟨"", 100, 10, 7⟩ : Order Int)
      { DB.empty true with orders := [⟨"", 1, 1, 2⟩] }).2.1 ⟨0, insertSQL⟩ rfl
    rw [h]; rfl,
   ((save_error_iff_database_error
      { (Env.ok : Env Int) with prepare := some "driver: bad connection" }
      ⟨"o1", 100, 10, 110⟩ (DB.empty true)).1 "driver: bad connection" rfl).1,
   ((save_error_iff_database_error
      { (Env.ok : Env Int) with prepare := some "driver: bad connection" }
      ⟨"o1", 100, 10, 110⟩ (DB.empty true)).1 "driver: bad connection" rfl).2.1⟩

/-- C7: `GetTotal` returns a non-nil error exactly when the count query or the scan of its
single result fails; the integer returned is then 0 and the error is the one the database
reported; otherwise the integer is the scanned count and the error is nil. -/
theorem getTotal_error_iff_query_or_scan_fails (env : Env α) (db : DB α) :
    ((GetTotal env db).1.2 ≠ none ↔
      (DB.QueryRow countSQL env db).1.err ≠ none ∨
        (DB.QueryRow countSQL env db).1.scanErr ≠ none) ∧
    (∀ e, (DB.QueryRow countSQL env db).1.err = some e → (GetTotal env db).1 = (0, some e)) ∧
    (∀ e, (DB.QueryRow countSQL env db).1.err = none →
      (DB.QueryRow countSQL env db).1.scanErr = some e → (GetTotal env db).1 = (0, some e)) ∧
    ((DB.QueryRow countSQL env db).1.err = none →
      (DB.QueryRow countSQL env db).1.scanErr = none →
      (GetTotal env db).1 = ((DB.QueryRow countSQL env db).1.count, none)) := by
  rw [getTotal_eq]
  cases hq : env.queryRow <;> cases hs : env.rowScan <;> simp [DB.QueryRow, hq, hs]

/-- A failed scan on a table of one row gives `(0, err)`, not the count. -/
theorem getTotal_error_iff_query_or_scan_fails_witness :
    (GetTotal { (Env.ok : Env Int) with rowScan := some "sql: Scan error" }
      { DB.empty true with orders := [⟨"o1", 100, 10, 110⟩] }).1
      = (0, some "sql: Scan error") :=
  (getTotal_error_iff_query_or_scan_fails
    { (Env.ok : Env Int) with rowScan := some "sql: Scan error" }
    { DB.empty true with orders := [⟨"o1", 100, 10, 110⟩] }).2.2.1 "sql: Scan error" rfl rfl

/-- C3: when the query succeeds and the cursor yields no row and reports no iteration error,
`SelectAll` returns a nil error with an allocated slice of length 0, never the nil slice; this
is what happens on an empty table whose `SELECT` succeeds. -/
theorem selectAll_empty_is_empty_slice (env : Env α) (db : DB α) :
    (∀ rows : Rows α, (DB.Query selectSQL env db).1 = Except.ok rows →
      rows.pending = [] → rows.lasterr = none →
      (SelectAll env db).1 = (some [], none) ∧ (SelectAll env db).1.1 ≠ none) ∧
    (env.query = none → db.orders = [] → env.SelectsAll db.orders →
      (SelectAll env db).1 = (some [], none)) := by
  constructor
  · intro rows hq hrows herr
    cases h : env.query with
    | some e => simp [query_fst, h] at hq
    | none =>
      simp only [query_fst, h, Except.ok.injEq] at hq
      subst hq
      simp only at hrows herr
      simp [selectAll_of_query_ok env db h, hrows, herr, SelectAll.loop]
  · intro h hempty hsel
    obtain ⟨l, hperm, hl⟩ := hsel
    rw [hempty] at hperm hl
    have hnil : l = [] := List.Perm.eq_nil hperm
    subst hnil
    simp [selectAll_of_query_ok env db h, hempty, hl, SelectAll.loop]

/-- The empty table on a healthy connection. -/
theorem selectAll_empty_is_empty_slice_witness :
    (SelectAll Env.ok (DB.empty true : DB Int)).1 = (some [], none) ∧
    (SelectAll Env.ok (DB.empty true : DB Int)).1.1 ≠ none :=
  (selectAll_empty_is_empty_slice Env.ok (DB.empty true : DB Int)).1 ⟨0, [], none⟩ rfl rfl rfl

/-- C4: `SelectAll` is all-or-nothing. If the query fails, or the `Scan` of the row at position
`decoded.length` fails after the rows before it were decoded, or the iteration ends with a
cursor error, the result is the nil slice with that error. The error is nil only when the
query, every `Scan` and the final `Err()` check succeed, and the list then holds one element
per row yielded, in the order yielded. A non-nil error always comes with the nil slice. -/
theorem selectAll_all_or_nothing (env : Env α) (db : DB α) :
    (∀ e, (DB.Query selectSQL env db).1 = Except.error e →
      (SelectAll env db).1 = (none, some e)) ∧
    (∀ (rows : Rows α) (decoded : List (Order α)) (e : Err)
        (rest : List (Except Err (Order α))),
      (DB.Query selectSQL env db).1 = Except.ok rows →
      rows.pending = decoded.map Except.ok ++ Except.error e :: rest →
      (SelectAll env db).1 = (none, some e)) ∧
    (∀ (rows : Rows α) (decoded : List (Order α)) (e : Err),
      (DB.Query selectSQL env db).1 = Except.ok rows →
      rows.pending = decoded.map Except.ok → rows.lasterr = some e →
      (SelectAll env db).1 = (none, some e)) ∧
    (∀ (rows : Rows α) (decoded : List (Order α)),
      (DB.Query selectSQL env db).1 = Except.ok rows →
      rows.pending = decoded.map Except.ok → rows.lasterr = none →
      (SelectAll env db).1 = (some decoded, none) ∧ decoded.length = rows.pending.length) ∧
    ((SelectAll env db).1.2 = none →
      ∃ (rows : Rows α) (decoded : List (Order α)),
        (DB.Query selectSQL env db).1 = Except.ok rows ∧
        rows.pending = decoded.map Except.ok ∧ rows.lasterr = none ∧
        (SelectAll env db).1.1 = some decoded ∧ decoded.length = rows.pending.length) ∧
    ((SelectAll env db).1.2 ≠ none → (SelectAll env db).1.1 = none) := by
  cases h : env.query with
  | some e0 =>
    simp [query_fst, h, selectAll_of_query_error env db e0 h]
  | none =>
    have hsel := selectAll_of_query_ok env db h
    refine ⟨?_, ?_, ?_, ?_, ?_, ?_⟩
    · intro e hq
      simp [query_fst, h] at hq
    · intro rows decoded e rest hq hp
      simp only [query_fst, h, Except.ok.injEq] at hq
      subst hq
      simp only at hp
      rw [hsel, hp, loop_scan_error]
    · intro rows decoded e hq hp he
      simp only [query_fst, h, Except.ok.injEq] at hq
      subst hq
      simp only at hp he
      rw [hsel, hp, he, loop_all_ok]
    · intro rows decoded hq hp he
      simp only [query_fst, h, Except.ok.injEq] at hq
      subst hq
      simp only at hp he
      rw [hsel, hp, he, loop_all_ok]
      simp
    · intro hnil
      rw [hsel] at hnil
      obtain ⟨hl, decoded, hp, hres⟩ := loop_nil_error _ _ _ hnil
      refine ⟨⟨db.nextHandle, (env.cursor db.orders).1, (env.cursor db.orders).2⟩, decoded,
        ?_, hp, hl, ?_, ?_⟩
      · simp [query_fst, h]
      · rw [hsel, hres]; simp
      · simp [hp]
    · intro hne
      rw [hsel] at hne ⊢
      exact loop_error_nil_list _ _ _ hne

/-- A cursor whose third row cannot be decoded: the two rows decoded before it are dropped. -/
theorem selectAll_all_or_nothing_witness :
    (SelectAll
      { (Env.ok : Env Int) with
        cursor := fun _ =>
          ([Except.ok ⟨"o1", 100, 10, 110⟩, Except.ok ⟨"o2", 5, 1, 6⟩,
            Except.error "sql: Scan error on column index 1", Except.ok ⟨"o4", 1, 1, 2⟩],
            none) }
      (DB.empty true)).1 = (none, some "sql: Scan error on column index 1") :=
  (selectAll_all_or_nothing
    { (Env.ok : Env Int) with
      cursor := fun _ =>
        ([Except.ok ⟨"o1", 100, 10, 110⟩, Except.ok ⟨"o2", 5, 1, 6⟩,
          Except.error "sql: Scan error on column index 1", Except.ok ⟨"o4", 1, 1, 2⟩],
          none) }
    (DB.empty true)).2.1
    ⟨0, [Except.ok ⟨"o1", 100, 10, 110⟩, Except.ok ⟨"o2", 5, 1, 6⟩,
          Except.error "sql: Scan error on column index 1", Except.ok ⟨"o4", 1, 1, 2⟩], none⟩
    [⟨"o1", 100, 10, 110⟩, ⟨"o2", 5, 1, 6⟩] "sql: Scan error on column index 1"
    [Except.ok ⟨"o4", 1, 1, 2⟩] rfl rfl

end Errors

/-! ## Resources, frame and requests -/

section Resources

variable {α : Type}

/-- C6: a successful query opens a cursor, and whatever happens afterwards (all rows decoded, a
`Scan` failure at any row, an iteration error) the open cursors are the same after `SelectAll`
as before it: the cursor it opened is closed, and, handles being fresh, is no longer among the
open ones. When the query fails no cursor is opened. -/
theorem selectAll_releases_cursor (env : Env α) (db : DB α) :
    (∀ rows : Rows α, (DB.Query selectSQL env db).1 = Except.ok rows →
      (DB.Query selectSQL env db).2.openRows = rows.handle :: db.openRows) ∧
    (SelectAll env db).2.openRows = db.openRows ∧
    (SelectAll env db).2.openRows.length = db.openRows.length ∧
    (∀ rows : Rows α, (DB.Query selectSQL env db).1 = Except.ok rows →
      (∀ h ∈ db.openRows, h < db.nextHandle) →
      rows.handle ∉ (SelectAll env db).2.openRows) := by
  refine ⟨?_, selectAll_openRows env db, by rw [selectAll_openRows], ?_⟩
  · intro rows hq
    cases h : env.query with
    | some e => simp [query_fst, h] at hq
    | none =>
      simp only [query_fst, h, Except.ok.injEq] at hq
      subst hq
      simp [DB.Query, h]
  · intro rows hq hfresh
    cases h : env.query with
    | some e => simp [query_fst, h] at hq
    | none =>
      simp only [query_fst, h, Except.ok.injEq] at hq
      subst hq
      rw [selectAll_openRows]
      intro hmem
      exact Nat.lt_irrefl _ (hfresh _ hmem)

/-- A `Scan` failure on the first row, with another cursor already open: that other cursor
is still the only open one afterwards. -/
theorem selectAll_releases_cursor_witness :
    (SelectAll
      { (Env.ok : Env Int) with cursor := fun _ => ([Except.error "sql: Scan error"], none) }
      { (DB.empty true : DB Int) with openRows := [3], nextHandle := 4 }).2.openRows = [3] ∧
    4 ∉ (SelectAll
      { (Env.ok : Env Int) with cursor := fun _ => ([Except.error "sql: Scan error"], none) }
      { (DB.empty true : DB Int) with openRows := [3], nextHandle := 4 }).2.openRows :=
  ⟨(selectAll_releases_cursor
      { (Env.ok : Env Int) with cursor := fun _ => ([Except.error "sql: Scan error"], none) }
      { (DB.empty true : DB Int) with openRows := [3], nextHandle := 4 }).2.1,
   (selectAll_releases_cursor
      { (Env.ok : Env Int) with cursor := fun _ => ([Except.error "sql: Scan error"], none) }
      { (DB.empty true : DB Int) with openRows := [3], nextHandle := 4 }).2.2.2
      ⟨4, [Except.error "sql: Scan error"], none⟩ rfl (by decide)⟩

/-- C10: `Save` never closes the statement it prepares. Every call whose prepare step succeeds
returns with one more open statement than before, whether the insert then succeeds or fails,
so a run of calls whose prepare steps succeed leaves as many more statements open as there
were calls; `SelectAll`, in contrast, leaves the open cursors as they were. -/
theorem save_leaves_statement_open (env : Env α) (order : Order α) (db : DB α) :
    (∀ stmt, (DB.Prepare insertSQL env db).1 = Except.ok stmt →
      (Save env order db).db.openStmts = stmt.handle :: db.openStmts ∧
      (Save env order db).db.openStmts.length = db.openStmts.length + 1) ∧
    (∀ calls : List (Env α × Order α), (∀ c ∈ calls, c.1.prepare = none) →
      (saveEach calls db).2.openStmts.length = db.openStmts.length + calls.length) ∧
    (SelectAll env db).2.openRows = db.openRows := by
  refine ⟨?_, fun calls hp => saveEach_openStmts_length calls db hp, selectAll_openRows env db⟩
  intro stmt hs
  cases hp : env.prepare with
  | some e => simp [prepare_fst, hp] at hs
  | none =>
    simp only [prepare_fst, hp, Except.ok.injEq] at hs
    subst hs
    rw [save_openStmts_of_prepared env order db hp]
    simp

/-- Two calls on a table with a uniqueness constraint, the second one rejected as a duplicate:
two statements are left open. -/
theorem save_leaves_statement_open_witness :
    (Save Env.ok (⟨"o1", 100, 10, 110⟩ : Order Int) (DB.empty true)).db.openStmts = [0] ∧
    (saveEach [(Env.ok, (⟨"o1", 100, 10, 110⟩ : Order Int)), (Env.ok, ⟨"o1", 5, 1, 6⟩)]
      (DB.empty true)).1 = [none, some uniqueViolation] ∧
    (saveEach [(Env.ok, (⟨"o1", 100, 10, 110⟩ : Order Int)), (Env.ok, ⟨"o1", 5, 1, 6⟩)]
      (DB.empty true)).2.openStmts.length = 0 + 2 :=
  ⟨((save_leaves_statement_open Env.ok (⟨"o1", 100, 10, 110⟩ : Order Int)
      (DB.empty true)).1 ⟨0, insertSQL⟩ rfl).1,
   by decide,
   (save_leaves_statement_open Env.ok (⟨"o1", 100, 10, 110⟩ : Order Int) (DB.empty true)).2.1
      [(Env.ok, (⟨"o1", 100, 10, 110⟩ : Order Int)), (Env.ok, ⟨"o1", 5, 1, 6⟩)]
      (by intro c hc; simp at hc; rcases hc with h | h <;> rw [h] <;> rfl)⟩

/-- C8: the store never mutates or deletes an order. `GetTotal` and `SelectAll` leave the table
as it was on every path; a successful `Save` changes the table only by appending the row of
the order saved, so that every earlier row is still there and the row count grows by one; a
`Save` whose prepare step failed leaves the table as it was; and `Save` leaves the caller's
order value as it was. -/
theorem store_never_mutates (env : Env α) (order : Order α) (db : DB α) :
    (GetTotal env db).2.orders = db.orders ∧
    (SelectAll env db).2.orders = db.orders ∧
    ((Save env order db).err = none →
      (Save env order db).db.orders = db.orders ++ [order] ∧
      (Save env order db).db.orders.length = db.orders.length + 1 ∧
      (∀ i (h : i < db.orders.length), (Save env order db).db.orders[i]? = some db.orders[i])) ∧
    (∀ e, (DB.Prepare insertSQL env db).1 = Except.error e →
      (Save env order db).db.orders = db.orders) ∧
    (Save env order db).order = order := by
  refine ⟨getTotal_orders env db, selectAll_orders env db, ?_, ?_, save_order env order db⟩
  · intro h
    rw [save_success_orders env order db h]
    refine ⟨rfl, by simp, ?_⟩
    intro i hi
    rw [List.getElem?_append_left hi, List.getElem?_eq_getElem hi]
  · intro e he
    cases hp : env.prepare with
    | some e0 => rw [save_of_prepare_error env order db e0 hp]
    | none => simp [prepare_fst, hp] at he

/-- A successful `Save` into a table of one row keeps that row and appends the new one. -/
theorem store_never_mutates_witness :
    (Save Env.ok (⟨"o2", 5, 1, 6⟩ : Order Int)
      { (DB.empty true : DB Int) with orders := [⟨"o1", 100, 10, 110⟩] }).db.orders
      = [⟨"o1", 100, 10, 110⟩, ⟨"o2", 5, 1, 6⟩] :=
  ((store_never_mutates Env.ok (⟨"o2", 5, 1, 6⟩ : Order Int)
    { (DB.empty true : DB Int) with orders := [⟨"o1", 100, 10, 110⟩] }).2.2.1 (by decide)).1

/-- C9, as stated, fails: a `Save` whose prepare step succeeds sends two requests to the
database, the prepare and the execute. -/
theorem save_issues_two_requests :
    (Save Env.ok (⟨"o1", 100, 10, 110⟩ : Order Int) (DB.empty true)).db.trace
      = [Request.prepare insertSQL, Request.exec 0 "o1" 100 10 110] ∧
    ¬ ((Save Env.ok (⟨"o1", 100, 10, 110⟩ : Order Int) (DB.empty true)).db.trace.length
      = (DB.empty true : DB Int).trace.length + 1) := by
  constructor
  · rfl
  · decide

/-- C9, amended: each call of `GetTotal` and of `SelectAll` sends exactly one request, on
every path; each call of `Save` sends one prepare request and, when and only when the prepare
succeeded, one execute request after it (two requests), and nothing more; no request is
repeated after a failure. -/
theorem requests_issued_per_call (env : Env α) (order : Order α) (db : DB α) :
    (∀ e, (DB.Prepare insertSQL env db).1 = Except.error e →
      (Save env order db).db.trace = db.trace ++ [Request.prepare insertSQL]) ∧
    (∀ stmt, (DB.Prepare insertSQL env db).1 = Except.ok stmt →
      (Save env order db).db.trace = db.trace ++
        [Request.prepare insertSQL,
          Request.exec stmt.handle order.ID order.Price order.Tax order.FinalPrice]) ∧
    (GetTotal env db).2.trace = db.trace ++ [Request.queryRow countSQL] ∧
    (SelectAll env db).2.trace = db.trace ++ [Request.query selectSQL] := by
  refine ⟨?_, ?_, by rw [getTotal_eq], ?_⟩
  · intro e he
    cases hp : env.prepare with
    | some e0 => rw [save_of_prepare_error env order db e0 hp]
    | none => simp [prepare_fst, hp] at he
  · intro stmt hs
    cases hp : env.prepare with
    | some e0 => simp [prepare_fst, hp] at hs
    | none =>
      simp only [prepare_fst, hp, Except.ok.injEq] at hs
      subst hs
      rcases save_cases env order db with ⟨e, he, _⟩ | ⟨e, _, _, h⟩ | ⟨_, _, _, h⟩
      · rw [hp] at he; simp at he
      · rw [h]; simp
      · rw [h]; simp
  · cases h : env.query with
    | some e => rw [selectAll_of_query_error env db e h]
    | none => rw [selectAll_of_query_ok env db h]

/-- A `Save` whose execute step fails sends the prepare and the execute once each. -/
theorem requests_issued_per_call_witness :
    (Save { (Env.ok : Env Int) with exec := some "driver: bad connection" }
      ⟨"o1", 100, 10, 110⟩ (DB.empty true)).db.trace
      = [] ++ [Request.prepare insertSQL, Request.exec 0 "o1" 100 10 110] :=
  (requests_issued_per_call { (Env.ok : Env Int) with exec := some "driver: bad connection" }
    ⟨"o1", 100, 10, 110⟩ (DB.empty true)).2.1 ⟨0, insertSQL⟩ rfl

end Resources

/-! ## What is saved is what is counted and listed -/

section RoundTrip

variable {α : Type}

/-- C2: provided the count query and its scan succeed, `GetTotal` on an empty table returns
`(0, nil)`, and after `N` successful `Save` calls on an initially empty table it returns
`(N, nil)`; in particular `N` orders with pairwise distinct ids, saved through a driver that
reports no failure, are all saved and counted. -/
theorem getTotal_counts_saved_orders (env : Env α) (db : DB α)
    (hquery : env.queryRow = none) (hscan : env.rowScan = none) (hempty : db.orders = []) :
    (GetTotal env db).1 = (0, none) ∧
    (∀ calls : List (Env α × Order α), (∀ e ∈ (saveEach calls db).1, e = none) →
      (GetTotal env (saveEach calls db).2).1 = ((calls.length : Int), none)) ∧
    (∀ calls : List (Env α × Order α), (∀ c ∈ calls, c.1.SaveOK) →
      (calls.map (fun c => c.2.ID)).Nodup →
      (∀ e ∈ (saveEach calls db).1, e = none) ∧
      (GetTotal env (saveEach calls db).2).1 = ((calls.length : Int), none)) := by
  have hcount : ∀ calls : List (Env α × Order α), (∀ e ∈ (saveEach calls db).1, e = none) →
      (GetTotal env (saveEach calls db).2).1 = ((calls.length : Int), none) := by
    intro calls h
    rw [getTotal_eq, saveEach_success_orders calls db h, hempty]
    simp [hquery, hscan]
  refine ⟨?_, hcount, ?_⟩
  · rw [getTotal_eq]
    simp [hquery, hscan, hempty]
  · intro calls hok hnodup
    have hall := saveEach_all_ok calls db hok hnodup (by simp [hempty])
    exact ⟨hall, hcount calls hall⟩

/-- Three orders with distinct ids saved into an empty table are counted as three. -/
theorem getTotal_counts_saved_orders_witness :
    (GetTotal Env.ok (DB.empty true : DB Int)).1 = (0, none) ∧
    (GetTotal Env.ok
      (saveEach [(Env.ok, (⟨"o1", 100, 10, 110⟩ : Order Int)), (Env.ok, ⟨"o2", 5, 1, 6⟩),
        (Env.ok, ⟨"o3", 7, 2, 9⟩)] (DB.empty true)).2).1 = (3, none) :=
  ⟨(getTotal_counts_saved_orders Env.ok (DB.empty true : DB Int) rfl rfl rfl).1,
   (getTotal_counts_saved_orders Env.ok (DB.empty true : DB Int) rfl rfl rfl).2.1
    [(Env.ok, (⟨"o1", 100, 10, 110⟩ : Order Int)), (Env.ok, ⟨"o2", 5, 1, 6⟩),
      (Env.ok, ⟨"o3", 7, 2, 9⟩)] (by decide)⟩

/-- C1: round-trip fidelity. Starting from an empty table, with a driver that reports no
failure and a `SELECT` that yields every row of the table in some order, saving orders with
pairwise distinct ids and then calling `SelectAll` gives no error at any step and a list that
is the saved orders up to order: for each saved order it has exactly one element with that
id, equal to it in all four fields, and it has no other element. A single saved order `X`
gives the list `[X]`. -/
theorem save_then_selectAll_round_trip (calls : List (Env α × Order α)) (env : Env α)
    (db : DB α) (hempty : db.orders = []) (hsave : ∀ c ∈ calls, c.1.SaveOK)
    (hnodup : (calls.map (fun c => c.2.ID)).Nodup) (hquery : env.query = none)
    (hselect : env.SelectsAll (saveEach calls db).2.orders) :
    (∀ e ∈ (saveEach calls db).1, e = none) ∧
    ∃ l : List (Order α),
      (SelectAll env (saveEach calls db).2).1 = (some l, none) ∧
      l.Perm (calls.map Prod.snd) ∧
      (∀ o ∈ calls.map Prod.snd, l.filter (fun x => decide (x.ID = o.ID)) = [o]) ∧
      (∀ x ∈ l, x ∈ calls.map Prod.snd) ∧
      (∀ X, calls.map Prod.snd = [X] → l = [X]) := by
  have hall := saveEach_all_ok calls db hsave hnodup (by simp [hempty])
  have htbl : (saveEach calls db).2.orders = calls.map Prod.snd := by
    rw [saveEach_success_orders calls db hall, hempty, List.nil_append]
  obtain ⟨l, hperm, hcur⟩ := hselect
  rw [htbl] at hperm
  have hids : ((calls.map Prod.snd).map (fun x => x.ID)).Nodup := by
    simpa [List.map_map, Function.comp_def] using hnodup
  refine ⟨hall, l, ?_, hperm, ?_, ?_, ?_⟩
  · rw [selectAll_of_query_ok env _ hquery, hcur, loop_all_ok]
    simp
  · intro o ho
    have hf := List.Perm.filter (fun x => decide (x.ID = o.ID)) hperm
    rw [filter_id_singleton _ o hids ho] at hf
    exact List.perm_singleton.mp hf
  · intro x hx
    exact hperm.subset hx
  · intro X hX
    rw [hX] at hperm
    exact List.perm_singleton.mp hperm

/-- Three orders with distinct ids, listed by an engine that returns rows newest first. -/
theorem save_then_selectAll_round_trip_witness :
    ∃ l : List (Order Int),
      (SelectAll { (Env.ok : Env Int) with cursor := fun tbl => (tbl.reverse.map Except.ok, none) }
        (saveEach [(Env.ok, (⟨"o1", 100, 10, 110⟩ : Order Int)), (Env.ok, ⟨"o2", 5, 1, 6⟩),
          (Env.ok, ⟨"o3", 7, 2, 9⟩)] (DB.empty true)).2).1 = (some l, none) ∧
      l.Perm [⟨"o1", 100, 10, 110⟩, ⟨"o2", 5, 1, 6⟩, ⟨"o3", 7, 2, 9⟩] :=
  have h := (save_then_selectAll_round_trip
    [(Env.ok, (⟨"o1", 100, 10, 110⟩ : Order Int)), (Env.ok, ⟨"o2", 5, 1, 6⟩),
      (Env.ok, ⟨"o3", 7, 2, 9⟩)]
    { (Env.ok : Env Int) with cursor := fun tbl => (tbl.reverse.map Except.ok, none) }
    (DB.empty true) rfl
    (by intro c hc; simp at hc; rcases hc with h | h | h <;> rw [h] <;> exact ⟨rfl, rfl⟩)
    (by decide) rfl ⟨_, List.reverse_perm _, rfl⟩).2
  h.imp (fun _ hl => ⟨hl.1, hl.2.1⟩)

/-- The worked example of the specification: after saving the order `o1` into an empty table,
the count is 1 and the listing is that order alone. -/
theorem spec_example_single_order :
    (GetTotal Env.ok (Save Env.ok (⟨"o1", 100, 10, 110⟩ : Order Int) (DB.empty true)).db).1
      = (1, none) ∧
    (SelectAll Env.ok (Save Env.ok (⟨"o1", 100, 10, 110⟩ : Order Int) (DB.empty true)).db).1
      = (some [⟨"o1", 100, 10, 110⟩], none) := by
  constructor <;> decide

end RoundTrip

end OrderRepository
